import Mathlib

/-!
Verification of the client-side voting/caching core of the repository
(staleness-aware cache, proposal-range discovery, event-log replay tally,
tally resolution pipeline, optimistic vote overlay, voting-power resolver).

All definitions are shallow embeddings of the JavaScript source:

* JS Map objects are modelled as association lists with replace-or-append
  insertion (JS Map.set updates an existing key in place and otherwise
  appends; every map built here starts empty, so keys never repeat).
* JS numbers holding token amounts are modelled as rationals; BigNumber
  (uint256) values are modelled as naturals; float rounding is not modelled.
* Date.now timestamps are naturals counting milliseconds.
* Thrown exceptions are modelled with Except; a JS try/catch is a match on
  the Except value.
-/

namespace Debug2

/-- JS Map lookup (Map.get): first entry with the given key, if any. -/
def jsMapGet {κ β : Type} [DecidableEq κ] (m : List (κ × β)) (k : κ) : Option β :=
  (m.find? (fun p => p.1 = k)).map Prod.snd

/-- JS Map membership test (Map.has). -/
def jsMapHas {κ β : Type} [DecidableEq κ] (m : List (κ × β)) (k : κ) : Bool :=
  (m.find? (fun p => p.1 = k)).isSome

/-- JS Map insertion (Map.set): replace the entry holding the key in place,
or append a fresh entry at the end. -/
def jsMapSet {κ β : Type} [DecidableEq κ] : List (κ × β) → κ → β → List (κ × β)
  | [], k, v => [(k, v)]
  | p :: rest, k, v => if p.1 = k then (k, v) :: rest else p :: jsMapSet rest k v

/-- JS Map removal (Map.delete). -/
def jsMapDelete {κ β : Type} [DecidableEq κ] (m : List (κ × β)) (k : κ) : List (κ × β) :=
  m.filter (fun p => ¬ p.1 = k)

/-!
## The staleness-aware cache (src/utils/blockchainDataCache.js)

The class keeps two Maps (cache and timestamps) updated in lockstep; they are
modelled here as one association list key ↦ (value, insertedAt).  A stored JS
value may itself be null, so the value slot is an Option: none is JS null.
The constructor default ttlMs = 30000 is the lifetime of the singleton
instance the whole repository imports.
-/

structure BlockchainDataCache (α : Type) where
  entries : List (String × (Option α × Nat))
  ttlMs : Nat

/-- The singleton instance: new BlockchainDataCache() with default 30000 ms. -/
def cacheInit (α : Type) : BlockchainDataCache α := ⟨[], 30000⟩

/-- get(key): null when the key is absent; otherwise check expiry against the
instance-wide ttlMs (strict greater-than), deleting and returning null when
expired, else returning the stored value.  Nat subtraction matches the JS
now - timestamp because timestamps are never in the future. -/
def BlockchainDataCache.get {α : Type} (st : BlockchainDataCache α) (key : String)
    (now : Nat) : Option α × BlockchainDataCache α :=
  match jsMapGet st.entries key with
  | none => (none, st)
  | some (v, timestamp) =>
    if now - timestamp > st.ttlMs then
      (none, { st with entries := jsMapDelete st.entries key })
    else
      (v, st)

/-- set(key, value): store the value with the current timestamp.  The method
declares exactly two parameters; it has no TTL parameter. -/
def BlockchainDataCache.set {α : Type} (st : BlockchainDataCache α) (key : String)
    (value : Option α) (now : Nat) : BlockchainDataCache α :=
  { st with entries := jsMapSet st.entries key (value, now) }

/-- Call sites throughout the repository invoke set(key, value, ttlSeconds)
with a third argument.  JavaScript silently drops extra arguments, so the
supplied TTL never reaches the cache; this wrapper records that fact. -/
def BlockchainDataCache.setWithTtl {α : Type} (st : BlockchainDataCache α) (key : String)
    (value : Option α) (_ttlSeconds : Nat) (now : Nat) : BlockchainDataCache α :=
  st.set key value now

/-- delete(key): remove the entry. -/
def BlockchainDataCache.del {α : Type} (st : BlockchainDataCache α) (key : String) :
    BlockchainDataCache α :=
  { st with entries := jsMapDelete st.entries key }

/-- getOrCompute(cacheKey, fn): return the cached value when get gives
non-null; otherwise run the producer, cache a successful result (even a null
one) and return it, or rethrow the producer's error without caching. -/
def BlockchainDataCache.getOrCompute {α ε : Type} (st : BlockchainDataCache α)
    (key : String) (fn : Except ε (Option α)) (now : Nat) :
    Except ε (Option α) × BlockchainDataCache α :=
  let r := st.get key now
  match r.1 with
  | some v => (.ok (some v), r.2)
  | none =>
    match fn with
    | .ok result => (.ok result, r.2.set key result now)
    | .error e => (.error e, r.2)

/-- The proposal lifecycle state code for Active (getProposalState comments:
0 = Active); every other state code is terminal for caching purposes. -/
def ACTIVE_STATE : Nat := 0

/-- TTL chosen by getProposalVoteDataWithCaching (VoteTab): 86400 seconds for
a non-Active (inactive) proposal, 15 seconds for an Active one. -/
def tallyTtlSeconds (proposalState : Nat) : Nat :=
  if ¬ proposalState = ACTIVE_STATE then 86400 else 15

/-!
## Proposal range discovery (useProposals.fetchProposals)

The remote point lookup getProposalState(id) either succeeds or throws; it is
modelled as a boolean predicate.  The exponential probe loop doubles high
starting from 100 and stops either at the first failing probe or once the
doubled high exceeds the 10000 ceiling; starting from 100 it therefore runs
at most 7 iterations, so a fuel of 8 can never be exhausted (the fuel is an
embedding artifact standing in for the JS while loop).
-/

/-- The exponential probe phase: while exists(high) succeeds set low := high,
high := high * 2, stopping once the doubled high exceeds 10000. Returns the
final (low, high) bracket. -/
def expandHigh (ex : Nat → Bool) : Nat → Nat → Nat → Nat × Nat
  | low, high, 0 => (low, high)
  | low, high, fuel + 1 =>
    if ex high then
      if high * 2 > 10000 then (high, high * 2)
      else expandHigh ex high (high * 2) fuel
    else (low, high)

/-- The binary search: while low <= high probe mid = floor((low+high)/2);
success moves low to mid+1, failure moves high to mid-1; the answer is the
final high (which can end at -1, the JS sentinel for no proposals).  low only
ever grows from 0 so it stays a natural; high is an integer because of the
-1 exit value. -/
def binarySearchMax (ex : Nat → Bool) (low : Nat) (high : Int) : Int :=
  if h : (low : Int) ≤ high then
    if ex ((low + high.toNat) / 2) then
      binarySearchMax ex ((low + high.toNat) / 2 + 1) high
    else
      binarySearchMax ex low (((low + high.toNat) / 2 : Nat) - 1)
  else high
termination_by (high + 1 - (low : Int)).toNat
decreasing_by
  · have hh : (0 : Int) ≤ high := le_trans (Int.ofNat_nonneg low) h
    omega
  · have hh : (0 : Int) ≤ high := le_trans (Int.ofNat_nonneg low) h
    omega

/-- The bounded linear fallback (ids 0 to 19): maxId is reset to every id
whose probe succeeds, starting from the -1 sentinel. -/
def linearFallback (ex : Nat → Bool) : Int :=
  (List.range 20).foldl (fun maxId i => if ex i then (i : Int) else maxId) (-1)

/-- fetchProposals' id-discovery: exponential probe from (low, high) = (0, 100),
then binary search of the bracket; if the result is the -1 sentinel, fall back
to the bounded linear scan. -/
def fetchProposalsMaxId (ex : Nat → Bool) : Int :=
  let bracket := expandHigh ex 0 100 8
  let maxId := binarySearchMax ex bracket.1 bracket.2
  if maxId = -1 then linearFallback ex else maxId

/-- A remote stub in which the point lookup succeeds exactly for ids up to K
(an integer so that K = -1 describes the stub where even id 0 fails). -/
def existsUpTo (K : Int) : Nat → Bool := fun i => decide ((i : Int) ≤ K)

/-!
## Event-log replay tally (useVoting.getIndexedVoteData, enhanced version)

A VoteCast log entry carries a voter address, a support code (0 = Against,
1 = For, 2 = Abstain, per the castVote validation) and a voting power.  The
code lowercases the address before keying the Map, so voters are modelled as
abstract identifiers already canonical; powers are the rationals produced by
formatEther.
-/

structure VoteCastEvent where
  voter : Nat
  support : Fin 3
  power : ℚ
deriving DecidableEq

/-- The replay Map: address ↦ (support, power), overwritten by each event in
log order (only the most recent vote of a voter survives). -/
def buildVoterMap (log : List VoteCastEvent) : List (Nat × (Fin 3 × ℚ)) :=
  log.foldl (fun m e => jsMapSet m e.voter (e.support, e.power)) []

/-- votesByType of the replay loop: one count per surviving map entry of the
given support code. -/
def votesByType (m : List (Nat × (Fin 3 × ℚ))) (t : Fin 3) : Nat :=
  (m.filter (fun p => p.2.1 = t)).length

/-- votingPowerByType of the replay loop: the power sum over surviving map
entries of the given support code. -/
def powerByType (m : List (Nat × (Fin 3 × ℚ))) (t : Fin 3) : ℚ :=
  (m.map (fun p => if p.2.1 = t then p.2.2 else 0)).sum

/-- The result shape shared by every resolution stage (the string fields of
the JS object hold the same numbers; they are kept as rationals). -/
structure IndexedVoteResult where
  yesVotes : ℚ
  noVotes : ℚ
  abstainVotes : ℚ
  totalVotes : Nat
  yesVotingPower : ℚ
  noVotingPower : ℚ
  abstainVotingPower : ℚ
  totalVotingPower : ℚ
  totalVoters : Nat
  yesPercentage : ℚ
  noPercentage : ℚ
  abstainPercentage : ℚ
  source : String
deriving DecidableEq

/-- getIndexedVoteData on a successfully fetched log: replay the events into
the voter map, then count votes and sum powers per type; yesVotes/noVotes/
abstainVotes of the result are set to the power sums (the per-type counts
only feed totalVotes); percentages are power shares, zero-guarded. -/
def getIndexedVoteData (log : List VoteCastEvent) : IndexedVoteResult :=
  let m := buildVoterMap log
  let c0 := votesByType m 0
  let c1 := votesByType m 1
  let c2 := votesByType m 2
  let w0 := powerByType m 0
  let w1 := powerByType m 1
  let w2 := powerByType m 2
  let totalVotingPower := w0 + w1 + w2
  { yesVotes := w1
    noVotes := w0
    abstainVotes := w2
    totalVotes := c0 + c1 + c2
    yesVotingPower := w1
    noVotingPower := w0
    abstainVotingPower := w2
    totalVotingPower := totalVotingPower
    totalVoters := m.length
    yesPercentage := if totalVotingPower > 0 then w1 / totalVotingPower * 100 else 0
    noPercentage := if totalVotingPower > 0 then w0 / totalVotingPower * 100 else 0
    abstainPercentage := if totalVotingPower > 0 then w2 / totalVotingPower * 100 else 0
    source := "events" }

/-!
Specification-side definitions for the replay claim, written from the spec's
words: one vote per unique voter, taking for each voter the entry latest in
log order.
-/

/-- The latest (last in log order) vote of a given voter, if any. -/
def lastVoteOf (log : List VoteCastEvent) (v : Nat) : Option (Fin 3 × ℚ) :=
  log.foldl (fun acc e => if e.voter = v then some (e.support, e.power) else acc) none

/-- The set of distinct voters appearing in the log. -/
def uniqueVoters (log : List VoteCastEvent) : Finset Nat :=
  (log.map (fun e => e.voter)).toFinset

/-- Spec-side count for a support code: the number of unique voters whose
latest vote carries that code. -/
def specCount (log : List VoteCastEvent) (t : Fin 3) : Nat :=
  ((uniqueVoters log).filter (fun v => (lastVoteOf log v).map Prod.fst = some t)).card

/-- Spec-side power sum for a support code: over unique voters, the power of
the latest vote when it carries that code. -/
def specPower (log : List VoteCastEvent) (t : Fin 3) : ℚ :=
  (uniqueVoters log).sum (fun v =>
    match lastVoteOf log v with
    | some (s, w) => if s = t then w else 0
    | none => 0)

/-!
## Tally resolution pipeline (useVoting.getProposalVoteTotals, enhanced
version)

Remote reads are inputs: the aggregate contract getter either yields the
five-tuple (yesVotes, noVotes, abstainVotes, totalVotingPower, totalVoters)
of raw uint values or throws; the event-log query either yields the log or
throws.  Cache lookups are inputs as well (None is a miss).  formatEther
scales a raw value by 10^-18; its rational form is exact.
-/

/-- A zero-filled result carrying the given provenance tag. -/
def zeroVoteResult (src : String) : IndexedVoteResult :=
  { yesVotes := 0, noVotes := 0, abstainVotes := 0, totalVotes := 0,
    yesVotingPower := 0, noVotingPower := 0, abstainVotingPower := 0,
    totalVotingPower := 0, totalVoters := 0,
    yesPercentage := 0, noPercentage := 0, abstainPercentage := 0,
    source := src }

/-- formatEther: exact division of a raw uint amount by 10^18. -/
def formatEther (x : Nat) : ℚ := (x : ℚ) / (10 ^ 18 : ℚ)

/-- The aggregate-read stage result: formatEther the four power values,
compute integer percentages with BigNumber mul/div (floor division),
zero-guarded on a zero total. -/
def contractGetterResult (y n a t v : Nat) : IndexedVoteResult :=
  { yesVotes := formatEther y
    noVotes := formatEther n
    abstainVotes := formatEther a
    totalVotes := 0
    yesVotingPower := formatEther y
    noVotingPower := formatEther n
    abstainVotingPower := formatEther a
    totalVotingPower := formatEther t
    totalVoters := v
    yesPercentage := if t = 0 then 0 else ((y * 100 / t : Nat) : ℚ)
    noPercentage := if t = 0 then 0 else ((n * 100 / t : Nat) : ℚ)
    abstainPercentage := if t = 0 then 0 else ((a * 100 / t : Nat) : ℚ)
    source := "contract-getter" }

/-- getIndexedVoteData as called by the pipeline: serve its own cache when it
hits, replay the log when the event query succeeds, and swallow a query
failure into the zeroed result tagged error (its own catch block). -/
def getIndexedVoteDataE (cachedIdx : Option IndexedVoteResult)
    (events : Except Unit (List VoteCastEvent)) : IndexedVoteResult :=
  match cachedIdx with
  | some r => r
  | none =>
    match events with
    | .ok log => getIndexedVoteData log
    | .error _ => zeroVoteResult "error"

/-- The full resolution pipeline.  The value is an Except so that an uncaught
exception would be visible as an error value; every stage catches its own
failure, so the theorem below shows the error constructor is never produced.
The outer catch around the event fallback is unreachable because
getIndexedVoteData already catches internally. -/
def getProposalVoteTotalsE (ready connected gov : Bool)
    (cachedTotals cachedIdx : Option IndexedVoteResult)
    (aggregate : Except Unit (Nat × Nat × Nat × Nat × Nat))
    (events : Except Unit (List VoteCastEvent)) : Except Unit IndexedVoteResult :=
  if ¬ (ready && connected && gov) then .ok (zeroVoteResult "not-connected")
  else
    match cachedTotals with
    | some r => .ok r
    | none =>
      match aggregate with
      | .ok (y, n, a, t, v) => .ok (contractGetterResult y n a t v)
      | .error _ => .ok (getIndexedVoteDataE cachedIdx events)

/-!
## Optimistic vote overlay (VoteTab.submitVote)

The component state proposalVoteData[proposalId] holds the displayed tally of
one proposal; submitVote builds a deep copy with the optimistic delta applied
and stores it back before the transaction is sent.  Reads (getVoteData) are
pure lookups of that state.  VOTE_TYPES codes: 0 = Against, 1 = For,
2 = Abstain.
-/

structure OptimisticVoteData where
  yesVotes : ℚ
  noVotes : ℚ
  abstainVotes : ℚ
  yesVotingPower : ℚ
  noVotingPower : ℚ
  abstainVotingPower : ℚ
  totalVotingPower : ℚ
  totalVoters : ℚ
  yesPercentage : ℚ
  noPercentage : ℚ
  abstainPercentage : ℚ
deriving DecidableEq

/-- The empty object submitVote starts from when no vote data is in state. -/
def emptyVoteData : OptimisticVoteData :=
  { yesVotes := 0, noVotes := 0, abstainVotes := 0,
    yesVotingPower := 0, noVotingPower := 0, abstainVotingPower := 0,
    totalVotingPower := 0, totalVoters := 0,
    yesPercentage := 0, noPercentage := 0, abstainPercentage := 0 }

/-- userVotingPower resolution in submitVote: parse the stored or refreshed
power; if it is still not positive, fall back to the minimum UI value 1. -/
def resolveUiVotingPower (resolved : ℚ) : ℚ :=
  if resolved ≤ 0 then 1 else resolved

/-- The optimistic update: when the user has not already voted, bump the
chosen type's count and power, bump totalVoters, recompute the power total
and, when it is positive, the percentages. -/
def applyOptimisticVote (cur : OptimisticVoteData) (support : Fin 3) (power : ℚ)
    (alreadyVoted : Bool) : OptimisticVoteData :=
  if alreadyVoted then cur
  else
    let d1 :=
      if support = 1 then
        { cur with yesVotes := cur.yesVotes + 1,
                   yesVotingPower := cur.yesVotingPower + power }
      else if support = 0 then
        { cur with noVotes := cur.noVotes + 1,
                   noVotingPower := cur.noVotingPower + power }
      else
        { cur with abstainVotes := cur.abstainVotes + 1,
                   abstainVotingPower := cur.abstainVotingPower + power }
    let d2 := { d1 with totalVoters := d1.totalVoters + 1 }
    let tot := d2.yesVotingPower + d2.noVotingPower + d2.abstainVotingPower
    let d3 := { d2 with totalVotingPower := tot }
    if tot > 0 then
      { d3 with yesPercentage := d3.yesVotingPower / tot * 100,
                noPercentage := d3.noVotingPower / tot * 100,
                abstainPercentage := d3.abstainVotingPower / tot * 100 }
    else d3

/-- The state written by submitVote for the proposal: the optimistic update of
the current state entry (or of the empty object), using the resolved power
with the minimum-1 fallback. -/
def submitVoteState (cur : Option OptimisticVoteData) (support : Fin 3)
    (resolvedPower : ℚ) (alreadyVoted : Bool) : OptimisticVoteData :=
  applyOptimisticVote (cur.getD emptyVoteData) support
    (resolveUiVotingPower resolvedPower) alreadyVoted

/-- getVoteData's state path: a pure lookup that returns the stored entry and
leaves the state untouched (the fallback argument stands for the cache or
synthetic data used when the state has no entry). -/
def getVoteDataFromState (stateEntry : Option OptimisticVoteData)
    (fallback : OptimisticVoteData) : OptimisticVoteData × Option OptimisticVoteData :=
  (stateEntry.getD fallback, stateEntry)

/-!
## Voting power resolver (BlockchainDataContext.getVotingPower and
BlockchainDataService.getVotingPower, identical logic)

Addresses are abstract identifiers with 0 standing for the zero address; the
recorded delegate is None when null.  parseEther/formatEther round-trips are
exact on rationals, so the resolver is balance + delegatedToYou under
self-delegation and 0 otherwise.
-/

/-- ethers.constants.AddressZero. -/
def AddressZero : Nat := 0

def getVotingPowerResolved (address : Nat) (currentDelegate : Option Nat)
    (balance delegatedToYou : ℚ) : ℚ :=
  if currentDelegate = some address ∨ currentDelegate = some AddressZero ∨
      currentDelegate = none then
    balance + delegatedToYou
  else 0

/-!
## hasVoted (BlockchainDataContext.hasVoted, wrapped by useVoting.hasVoted)

The context checks connection, account, contract readiness, then the locally
known voted map, then the remote proposalVoterInfo lookup, whose failure is
caught and turned into false.  The hook wrapper consults the shared cache
first and otherwise stores and returns the context's answer.
-/

def ctxHasVotedE (connected accountPresent ready govReady : Bool)
    (knownVoted : Bool) (voterInfo : Except Unit Nat) : Except Unit Bool :=
  if ¬ (connected && accountPresent && ready && govReady) then .ok false
  else
    if knownVoted then .ok true
    else
      match voterInfo with
      | .ok power => .ok (decide (¬ power = 0))
      | .error _ => .ok false

/-- The useVoting wrapper around the context hasVoted: a cached boolean (even
false) short-circuits; a miss defers to the context result. -/
def hookHasVoted (cached : Option Bool) (ctxResult : Bool) : Bool :=
  match cached with
  | some b => b
  | none => ctxResult

/-- Selector: the vote count of a support code in the displayed tally. -/
def countOf (d : OptimisticVoteData) (t : Fin 3) : ℚ :=
  if t = 1 then d.yesVotes else if t = 0 then d.noVotes else d.abstainVotes

/-- Selector: the voting power of a support code in the displayed tally. -/
def powerOf (d : OptimisticVoteData) (t : Fin 3) : ℚ :=
  if t = 1 then d.yesVotingPower else if t = 0 then d.noVotingPower
  else d.abstainVotingPower

/-!
# Theorems
-/

theorem jsMapGet_set_self {κ β : Type} [DecidableEq κ] (m : List (κ × β)) (k : κ) (v : β) :
    jsMapGet (jsMapSet m k v) k = some v := by
  induction m with
  | nil => simp [jsMapSet, jsMapGet]
  | cons p rest ih =>
    by_cases h : p.1 = k
    · simp [jsMapSet, h, jsMapGet]
    · simpa [jsMapSet, h, jsMapGet] using ih

theorem jsMapGet_set_other {κ β : Type} [DecidableEq κ] (m : List (κ × β)) (k k' : κ)
    (v : β) (h : ¬ k' = k) : jsMapGet (jsMapSet m k v) k' = jsMapGet m k' := by
  have hsym : ¬ k = k' := fun hh => h hh.symm
  induction m with
  | nil => simp [jsMapSet, jsMapGet, hsym]
  | cons p rest ih =>
    by_cases hp : p.1 = k
    · subst hp
      have hne : ¬ p.1 = k' := fun hh => h hh.symm
      simp [jsMapSet, jsMapGet, hne]
    · by_cases hk' : p.1 = k'
      · simp [jsMapSet, hp, jsMapGet, hk', h]
      · simpa [jsMapSet, hp, jsMapGet, hk'] using ih

/-- C1: the cache drops the per-entry TTL.  An entry stored through
set(key, value, ttlSeconds = 86400) is already a miss 30001 ms after
insertion, although 30001 ms is far below 86400 seconds, because set has no
TTL parameter and get compares against the instance-wide 30000 ms ttlMs with
a non-strict hit condition.  The immediate-hit and delete clauses of the
claim do hold (last two conjuncts). -/
theorem cache_per_entry_ttl_dropped :
    ((((cacheInit Nat).setWithTtl "k" (some 7) 86400 0).get "k" 30001).1 = none) ∧
    (30001 < 86400 * 1000) ∧
    ((((cacheInit Nat).setWithTtl "k" (some 7) 86400 0).get "k" 0).1 = some 7) ∧
    (((((cacheInit Nat).setWithTtl "k" (some 7) 86400 0).del "k").get "k" 0).1 = none) := by
  decide

/-- C2: the lifecycle-dependent TTL chosen for a cached tally never takes
effect.  A tally of a terminal proposal (state 3 = Defeated), stored with the
86400-second TTL, is a miss 31 s after insertion instead of lasting 24 h; a
tally of an Active proposal (state 0), stored with the 15-second TTL, is
still a hit 20 s after insertion.  Both expire at the fixed instance-wide
30000 ms instead. -/
theorem tally_cache_lifecycle_ttl_not_applied :
    (tallyTtlSeconds 3 = 86400) ∧ (tallyTtlSeconds ACTIVE_STATE = 15) ∧
    ((((cacheInit Nat).setWithTtl "dashboard-votes-1" (some 5) (tallyTtlSeconds 3) 0).get
        "dashboard-votes-1" 31000).1 = none) ∧
    (31000 < 86400 * 1000) ∧
    ((((cacheInit Nat).setWithTtl "dashboard-votes-2" (some 5)
        (tallyTtlSeconds ACTIVE_STATE) 0).get "dashboard-votes-2" 20000).1 = some 5) ∧
    (15 * 1000 < 20000) := by
  decide

/-- C10: a stored null can never be observed as a cache hit: get returns null
on a genuine miss and when null was stored; getOrCompute over a null entry
returns the fresh producer result, a produced null makes the next call run
the next producer again, and only a non-null produced value is served from
the cache on a later call within the TTL. -/
theorem get_fst_set_fresh {α : Type} (st : BlockchainDataCache α) (k : String)
    (w : Option α) (t now : Nat) (h : ¬ now - t > st.ttlMs) :
    ((st.set k w t).get k now).1 = w := by
  simp only [BlockchainDataCache.set, BlockchainDataCache.get]
  rw [jsMapGet_set_self]
  simp [h]

theorem get_fst_set_none {α : Type} (st : BlockchainDataCache α) (k : String)
    (t now : Nat) : ((st.set k none t).get k now).1 = none := by
  simp only [BlockchainDataCache.set, BlockchainDataCache.get]
  rw [jsMapGet_set_self]
  by_cases h : now - t > st.ttlMs <;> simp [h]

theorem get_snd_ttlMs {α : Type} (st : BlockchainDataCache α) (k : String)
    (now : Nat) : ((st.get k now).2).ttlMs = st.ttlMs := by
  rcases h : jsMapGet st.entries k with _ | ⟨v, ts⟩ <;>
    simp only [BlockchainDataCache.get, h]
  by_cases h2 : now - ts > st.ttlMs <;> simp [h2]

theorem getOrCompute_fst_of_get_none {α ε : Type} (st : BlockchainDataCache α)
    (k : String) (now : Nat) (f : Except ε (Option α))
    (h : (st.get k now).1 = none) : (st.getOrCompute k f now).1 = f := by
  simp only [BlockchainDataCache.getOrCompute]
  rw [h]
  cases f <;> rfl

theorem getOrCompute_snd_of_get_none {α ε : Type} (st : BlockchainDataCache α)
    (k : String) (now : Nat) (r : Option α)
    (h : (st.get k now).1 = none) :
    (st.getOrCompute k (.ok r : Except ε (Option α)) now).2 =
      (st.get k now).2.set k r now := by
  simp only [BlockchainDataCache.getOrCompute]
  rw [h]

theorem getOrCompute_fst_of_get_some {α ε : Type} (st : BlockchainDataCache α)
    (k : String) (now : Nat) (g : Except ε (Option α)) (v : α)
    (h : (st.get k now).1 = some v) : (st.getOrCompute k g now).1 = .ok (some v) := by
  simp only [BlockchainDataCache.getOrCompute]
  rw [h]

/-- C10: a stored null can never be observed as a cache hit: get returns null
on a genuine miss and when null was stored; getOrCompute over a null entry
returns the fresh producer result, a produced null makes the next call run
the next producer again, and only a non-null produced value is served from
the cache on a later call within the TTL. -/
theorem cache_null_never_a_hit (st : BlockchainDataCache Nat) (k : String)
    (t now now2 : Nat) (f g : Except Unit (Option Nat)) :
    (((st.set k none t).get k now).1 = none) ∧
    ((((cacheInit Nat).get k now).1 = none)) ∧
    (((st.set k none t).getOrCompute k f now).1 = f) ∧
    (f = .ok none →
      ((((st.set k none t).getOrCompute k f now).2).getOrCompute k g now2).1 = g) ∧
    (∀ v : Nat, f = .ok (some v) → now2 - now ≤ st.ttlMs →
      ((((st.set k none t).getOrCompute k f now).2).getOrCompute k g now2).1 =
        .ok (some v)) := by
  refine ⟨get_fst_set_none st k t now, ?_, ?_, ?_, ?_⟩
  · simp [cacheInit, BlockchainDataCache.get, jsMapGet]
  · exact getOrCompute_fst_of_get_none _ k now f (get_fst_set_none st k t now)
  · intro hf
    subst hf
    rw [getOrCompute_snd_of_get_none _ k now none (get_fst_set_none st k t now)]
    exact getOrCompute_fst_of_get_none _ k now2 g (get_fst_set_none _ k now now2)
  · intro v hf httl
    subst hf
    rw [getOrCompute_snd_of_get_none _ k now (some v) (get_fst_set_none st k t now)]
    refine getOrCompute_fst_of_get_some _ k now2 g v ?_
    refine get_fst_set_fresh _ k (some v) now now2 ?_
    have hsame : (((st.set k none t).get k now).2).ttlMs = (st.set k none t).ttlMs :=
      get_snd_ttlMs _ k now
    have hset : (st.set k none t).ttlMs = st.ttlMs := rfl
    omega

/-- Witness for the C10 theorem at a concrete input. -/
theorem cache_null_never_a_hit_witness :
    ((((cacheInit Nat).set "k" (none : Option Nat) 0).getOrCompute "k"
        (.ok (some 9) : Except Unit (Option Nat)) 5).2.getOrCompute "k"
        (.ok (some 3) : Except Unit (Option Nat)) 10).1 = Except.ok (some 9) :=
  (cache_null_never_a_hit (cacheInit Nat) "k" 0 5 10 (Except.ok (some 9))
    (Except.ok (some 3))).2.2.2.2 9 rfl (by decide)

/-- C8: the resolved voting weight is balance plus total inbound delegation
exactly when the recorded delegate is unset (null or the zero address) or the
holder themself, and 0 whenever the delegate is some other address. -/
theorem votingPower_self_delegation_rule (a : Nat) (d : Option Nat) (b g : ℚ) :
    ((d = none ∨ d = some AddressZero ∨ d = some a) →
      getVotingPowerResolved a d b g = b + g) ∧
    (∀ x, d = some x → ¬ x = AddressZero → ¬ x = a →
      getVotingPowerResolved a d b g = 0) := by
  constructor
  · intro h
    rcases h with h | h | h <;> simp [getVotingPowerResolved, h]
  · intro x hx h0 ha
    subst hx
    have h1 : ¬ (some x = some a) := by simp [ha]
    have h2 : ¬ (some x = some AddressZero) := by simp [h0]
    simp [getVotingPowerResolved, h1, h2]

/-- Witness for the C8 theorem: a self-delegated holder (null delegate) gets
balance + inbound delegation; a holder delegated to someone else gets 0. -/
theorem votingPower_self_delegation_rule_witness :
    getVotingPowerResolved 1 none 3 4 = 3 + 4 ∧
    getVotingPowerResolved 1 (some 2) 3 4 = 0 :=
  ⟨(votingPower_self_delegation_rule 1 none 3 4).1 (Or.inl rfl),
   (votingPower_self_delegation_rule 1 (some 2) 3 4).2 2 rfl (by decide) (by decide)⟩

/-- C9: hasVoted never raises: the Except-shaped embedding always returns an
ok value; a missing connection, missing account, unready contracts, or a
thrown remote voter-info lookup (when the answer is not already locally
known) all yield false; the hook wrapper passes a cache miss through to the
context's answer and otherwise serves the cached boolean. -/
theorem hasVoted_never_raises (connected acct ready gov knownVoted : Bool)
    (voterInfo : Except Unit Nat) (r : Bool) :
    (∃ b, ctxHasVotedE connected acct ready gov knownVoted voterInfo = .ok b) ∧
    (connected = false →
      ctxHasVotedE connected acct ready gov knownVoted voterInfo = .ok false) ∧
    (acct = false →
      ctxHasVotedE connected acct ready gov knownVoted voterInfo = .ok false) ∧
    (ready = false →
      ctxHasVotedE connected acct ready gov knownVoted voterInfo = .ok false) ∧
    (gov = false →
      ctxHasVotedE connected acct ready gov knownVoted voterInfo = .ok false) ∧
    (knownVoted = false → voterInfo = .error () →
      ctxHasVotedE connected acct ready gov knownVoted voterInfo = .ok false) ∧
    (hookHasVoted none r = r) ∧ (∀ b, hookHasVoted (some b) r = b) := by
  refine ⟨?_, ?_, ?_, ?_, ?_, ?_, rfl, fun b => rfl⟩
  · cases connected <;> cases acct <;> cases ready <;> cases gov <;>
      cases knownVoted <;> rcases voterInfo with e | p <;>
      simp [ctxHasVotedE] <;> exact em (p = 0)
  · intro h
    subst h
    simp [ctxHasVotedE]
  · intro h
    subst h
    simp [ctxHasVotedE]
  · intro h
    subst h
    simp [ctxHasVotedE]
  · intro h
    subst h
    simp [ctxHasVotedE]
  · intro hk hv
    subst hk
    subst hv
    cases connected <;> cases acct <;> cases ready <;> cases gov <;>
      simp [ctxHasVotedE]

/-- Witness for the C9 theorem: a thrown voter-info lookup on a fully
connected caller reads as not-having-voted. -/
theorem hasVoted_never_raises_witness :
    ctxHasVotedE true true true true false (.error ()) = .ok false :=
  (hasVoted_never_raises true true true true false (.error ()) true).2.2.2.2.2.1
    rfl rfl

/-- C7 counterexample: a caller whose resolved voting power is 0 submits a
For vote over an empty tally; the displayed For weight grows by 1 (the
minimum UI placeholder), not by the resolved power 0, so the read does not
show the weight increased by exactly the caller's resolved voting power. -/
theorem applyOptimisticVote_false_fields (cur : OptimisticVoteData)
    (support : Fin 3) (power : ℚ) :
    ((applyOptimisticVote cur support power false).yesVotes
      = if support = 1 then cur.yesVotes + 1 else cur.yesVotes) ∧
    ((applyOptimisticVote cur support power false).noVotes
      = if support = 0 then cur.noVotes + 1 else cur.noVotes) ∧
    ((applyOptimisticVote cur support power false).abstainVotes
      = if support = 1 ∨ support = 0 then cur.abstainVotes
        else cur.abstainVotes + 1) ∧
    ((applyOptimisticVote cur support power false).yesVotingPower
      = if support = 1 then cur.yesVotingPower + power else cur.yesVotingPower) ∧
    ((applyOptimisticVote cur support power false).noVotingPower
      = if support = 0 then cur.noVotingPower + power else cur.noVotingPower) ∧
    ((applyOptimisticVote cur support power false).abstainVotingPower
      = if support = 1 ∨ support = 0 then cur.abstainVotingPower
        else cur.abstainVotingPower + power) ∧
    ((applyOptimisticVote cur support power false).totalVoters
      = cur.totalVoters + 1) := by
  fin_cases support <;>
    refine ⟨?_, ?_, ?_, ?_, ?_, ?_, ?_⟩ <;>
    simp [applyOptimisticVote] <;>
    split <;>
    simp

theorem optimistic_overlay_counterexample :
    (submitVoteState none 1 0 false).yesVotingPower = 1 ∧
    ¬ (submitVoteState none 1 0 false).yesVotingPower =
      emptyVoteData.yesVotingPower + 0 := by
  have h := (applyOptimisticVote_false_fields emptyVoteData 1
    (resolveUiVotingPower 0)).2.2.2.1
  have hr : resolveUiVotingPower 0 = 1 := by norm_num [resolveUiVotingPower]
  have hs : submitVoteState none 1 0 false
      = applyOptimisticVote emptyVoteData 1 (resolveUiVotingPower 0) false := rfl
  rw [hs, h]
  norm_num [emptyVoteData, hr]

/-- C7 (amended): after submitVote, a read of the stored overlay shows the
chosen choice's count and totalVoters each incremented by one and the chosen
choice's weight increased by exactly the caller's resolved voting power
whenever that power is positive (a non-positive resolved power is replaced by
the placeholder 1); the other choices are untouched; reads return the stored
overlay without mutating it, so a second read sees the same value and never
reapplies the delta; and no delta at all is applied when the caller is
already recorded as having voted. -/
theorem optimistic_overlay_amended (cur : OptimisticVoteData) (support : Fin 3)
    (p : ℚ) :
    (countOf (applyOptimisticVote cur support (resolveUiVotingPower p) false) support
      = countOf cur support + 1) ∧
    ((applyOptimisticVote cur support (resolveUiVotingPower p) false).totalVoters
      = cur.totalVoters + 1) ∧
    (0 < p →
      powerOf (applyOptimisticVote cur support (resolveUiVotingPower p) false) support
        = powerOf cur support + p) ∧
    (∀ t, ¬ t = support →
      countOf (applyOptimisticVote cur support (resolveUiVotingPower p) false) t
          = countOf cur t ∧
        powerOf (applyOptimisticVote cur support (resolveUiVotingPower p) false) t
          = powerOf cur t) ∧
    (applyOptimisticVote cur support (resolveUiVotingPower p) true = cur) ∧
    (∀ d fb, getVoteDataFromState (some d) fb = (d, some d)) := by
  have hp : 0 < p → resolveUiVotingPower p = p := by
    intro h
    rw [resolveUiVotingPower, if_neg (not_le.mpr h)]
  refine ⟨?_,
    (applyOptimisticVote_false_fields cur support (resolveUiVotingPower p)).2.2.2.2.2.2,
    ?_, ?_, rfl, fun d fb => rfl⟩
  · have hf := applyOptimisticVote_false_fields cur support (resolveUiVotingPower p)
    fin_cases support <;> simp_all [countOf]
  · intro h
    rw [hp h]
    have hf := applyOptimisticVote_false_fields cur support p
    fin_cases support <;> simp_all [powerOf]
  · intro t ht
    have hf := applyOptimisticVote_false_fields cur support (resolveUiVotingPower p)
    fin_cases support <;> fin_cases t <;> simp_all [countOf, powerOf]

/-- Witness for the amended C7 theorem: a caller with resolved power 5 votes
For over an empty tally; the For weight grows by exactly 5. -/
theorem optimistic_overlay_amended_witness :
    (0 : ℚ) < 5 ∧
    powerOf (applyOptimisticVote emptyVoteData 1 (resolveUiVotingPower 5) false) 1
      = powerOf emptyVoteData 1 + 5 :=
  ⟨by norm_num,
   (optimistic_overlay_amended emptyVoteData 1 5).2.2.1 (by norm_num)⟩

/-- C6: tally resolution never throws: the pipeline always returns an ok
value; when the preconditions fail the zeroed not-connected result is
returned; on a cache miss a successful aggregate read yields the result
tagged contract-getter; an aggregate failure falls through to event replay,
tagged events on success; and when every stage fails the zeroed result
tagged error is returned rather than an exception. -/
theorem resolveTally_never_throws (ready connected gov : Bool)
    (cachedTotals cachedIdx : Option IndexedVoteResult)
    (aggregate : Except Unit (Nat × Nat × Nat × Nat × Nat))
    (events : Except Unit (List VoteCastEvent)) :
    (∃ r, getProposalVoteTotalsE ready connected gov cachedTotals cachedIdx
        aggregate events = .ok r) ∧
    ((ready && connected && gov) = false →
      getProposalVoteTotalsE ready connected gov cachedTotals cachedIdx
        aggregate events = .ok (zeroVoteResult "not-connected")) ∧
    ((ready && connected && gov) = true → cachedTotals = none →
      ∀ y n a t v, aggregate = .ok (y, n, a, t, v) →
        getProposalVoteTotalsE ready connected gov cachedTotals cachedIdx
            aggregate events = .ok (contractGetterResult y n a t v) ∧
          (contractGetterResult y n a t v).source = "contract-getter") ∧
    ((ready && connected && gov) = true → cachedTotals = none →
      aggregate = .error () → cachedIdx = none →
      ∀ log, events = .ok log →
        getProposalVoteTotalsE ready connected gov cachedTotals cachedIdx
            aggregate events = .ok (getIndexedVoteData log) ∧
          (getIndexedVoteData log).source = "events") ∧
    ((ready && connected && gov) = true → cachedTotals = none →
      aggregate = .error () → cachedIdx = none → events = .error () →
      getProposalVoteTotalsE ready connected gov cachedTotals cachedIdx
        aggregate events = .ok (zeroVoteResult "error")) := by
  refine ⟨?_, ?_, ?_, ?_, ?_⟩
  · by_cases hc : (ready && connected && gov) = true
    · cases cachedTotals with
      | some r => exact ⟨r, by simp [getProposalVoteTotalsE, hc]⟩
      | none =>
        rcases aggregate with e | ⟨y, n, a, t, v⟩
        · cases cachedIdx with
          | some r =>
            exact ⟨r, by simp [getProposalVoteTotalsE, hc, getIndexedVoteDataE]⟩
          | none =>
            rcases events with e2 | log
            · exact ⟨zeroVoteResult "error",
                by simp [getProposalVoteTotalsE, hc, getIndexedVoteDataE]⟩
            · exact ⟨getIndexedVoteData log,
                by simp [getProposalVoteTotalsE, hc, getIndexedVoteDataE]⟩
        · exact ⟨contractGetterResult y n a t v,
            by simp [getProposalVoteTotalsE, hc]⟩
    · exact ⟨zeroVoteResult "not-connected", by simp [getProposalVoteTotalsE, hc]⟩
  · intro hc
    simp [getProposalVoteTotalsE, hc]
  · intro hc hct y n a t v hagg
    subst hct
    subst hagg
    exact ⟨by simp [getProposalVoteTotalsE, hc], rfl⟩
  · intro hc hct hagg hci log hev
    subst hct
    subst hagg
    subst hci
    subst hev
    exact ⟨by simp [getProposalVoteTotalsE, hc, getIndexedVoteDataE], rfl⟩
  · intro hc hct hagg hci hev
    subst hct
    subst hagg
    subst hci
    subst hev
    simp [getProposalVoteTotalsE, hc, getIndexedVoteDataE]

/-- Witness for the C6 theorem: with both remote reads failing, the pipeline
returns the zeroed error-tagged result instead of throwing. -/
theorem resolveTally_never_throws_witness :
    getProposalVoteTotalsE true true true none none (.error ()) (.error ())
      = .ok (zeroVoteResult "error") :=
  (resolveTally_never_throws true true true none none (.error ())
    (.error ())).2.2.2.2 rfl rfl rfl rfl rfl

theorem percent_floor_sum_bounds (y n a t : Nat) (ht : 0 < t) (hsum : t = y + n + a) :
    98 ≤ y * 100 / t + n * 100 / t + a * 100 / t ∧
      y * 100 / t + n * 100 / t + a * 100 / t ≤ 100 := by
  have h1 : t * (y * 100 / t) + y * 100 % t = y * 100 := Nat.div_add_mod _ _
  have h2 : t * (n * 100 / t) + n * 100 % t = n * 100 := Nat.div_add_mod _ _
  have h3 : t * (a * 100 / t) + a * 100 % t = a * 100 := Nat.div_add_mod _ _
  have m1 : y * 100 % t < t := Nat.mod_lt _ ht
  have m2 : n * 100 % t < t := Nat.mod_lt _ ht
  have m3 : a * 100 % t < t := Nat.mod_lt _ ht
  have key : t * (y * 100 / t + n * 100 / t + a * 100 / t)
      + (y * 100 % t + n * 100 % t + a * 100 % t) = t * 100 := by
    have e : y * 100 + n * 100 + a * 100 = t * 100 := by rw [hsum]; ring
    calc t * (y * 100 / t + n * 100 / t + a * 100 / t)
          + (y * 100 % t + n * 100 % t + a * 100 % t)
        = t * (y * 100 / t) + y * 100 % t + (t * (n * 100 / t) + n * 100 % t)
          + (t * (a * 100 / t) + a * 100 % t) := by ring
      _ = y * 100 + n * 100 + a * 100 := by rw [h1, h2, h3]
      _ = t * 100 := e
  obtain ⟨A, hA⟩ : ∃ A, t * (y * 100 / t + n * 100 / t + a * 100 / t) = A := ⟨_, rfl⟩
  rw [hA] at key
  constructor
  · have hlt : t * 97 < A := by omega
    rw [← hA] at hlt
    exact lt_of_mul_lt_mul_left hlt (Nat.zero_le t)
  · have hle : A ≤ t * 100 := by omega
    rw [← hA] at hle
    exact Nat.le_of_mul_le_mul_left hle ht

/-- C5: in every TallyResult produced by a resolution stage, totalWeight
equals the sum of the three per-choice weights (for the aggregate-read stage
under the hypothesis that the remote five-tuple itself satisfies its
contract, since the code passes the remote total through untouched); a zero
total makes every percentage 0 with no division; a positive total makes the
three percentages sum to exactly 100 for the rational event-replay stage and
to between 98 and 100 for the floor-divided aggregate stage. -/
theorem tally_result_invariants :
    (∀ y n a t v : Nat, t = y + n + a →
      ((contractGetterResult y n a t v).totalVotingPower
          = (contractGetterResult y n a t v).yesVotingPower
            + (contractGetterResult y n a t v).noVotingPower
            + (contractGetterResult y n a t v).abstainVotingPower) ∧
        (t = 0 → (contractGetterResult y n a t v).yesPercentage = 0 ∧
          (contractGetterResult y n a t v).noPercentage = 0 ∧
          (contractGetterResult y n a t v).abstainPercentage = 0) ∧
        (0 < t →
          98 ≤ (contractGetterResult y n a t v).yesPercentage
              + (contractGetterResult y n a t v).noPercentage
              + (contractGetterResult y n a t v).abstainPercentage ∧
            (contractGetterResult y n a t v).yesPercentage
              + (contractGetterResult y n a t v).noPercentage
              + (contractGetterResult y n a t v).abstainPercentage ≤ 100)) ∧
    (∀ log : List VoteCastEvent,
      ((getIndexedVoteData log).totalVotingPower
          = (getIndexedVoteData log).yesVotingPower
            + (getIndexedVoteData log).noVotingPower
            + (getIndexedVoteData log).abstainVotingPower) ∧
        ((getIndexedVoteData log).totalVotingPower = 0 →
          (getIndexedVoteData log).yesPercentage = 0 ∧
          (getIndexedVoteData log).noPercentage = 0 ∧
          (getIndexedVoteData log).abstainPercentage = 0) ∧
        (0 < (getIndexedVoteData log).totalVotingPower →
          (getIndexedVoteData log).yesPercentage
            + (getIndexedVoteData log).noPercentage
            + (getIndexedVoteData log).abstainPercentage = 100)) ∧
    (∀ src : String,
      (zeroVoteResult src).totalVotingPower
          = (zeroVoteResult src).yesVotingPower + (zeroVoteResult src).noVotingPower
            + (zeroVoteResult src).abstainVotingPower ∧
        (zeroVoteResult src).yesPercentage = 0 ∧
        (zeroVoteResult src).noPercentage = 0 ∧
        (zeroVoteResult src).abstainPercentage = 0) := by
  refine ⟨?_, ?_, ?_⟩
  · intro y n a t v hsum
    refine ⟨?_, ?_, ?_⟩
    · simp only [contractGetterResult, formatEther]
      subst hsum
      push_cast
      ring
    · intro ht0
      simp [contractGetterResult, ht0]
    · intro ht
      have ht0 : ¬ t = 0 := by omega
      have hb := percent_floor_sum_bounds y n a t ht hsum
      simp only [contractGetterResult, ht0, if_false]
      constructor
      · exact_mod_cast hb.1
      · exact_mod_cast hb.2
  · intro log
    refine ⟨?_, ?_, ?_⟩
    · simp only [getIndexedVoteData]
      ring
    · intro h0
      simp only [getIndexedVoteData] at h0 ⊢
      rw [if_neg, if_neg, if_neg] <;> simp [h0]
    · intro hpos
      simp only [getIndexedVoteData] at hpos ⊢
      rw [if_pos hpos, if_pos hpos, if_pos hpos]
      have hne : powerByType (buildVoterMap log) 0 + powerByType (buildVoterMap log) 1
          + powerByType (buildVoterMap log) 2 ≠ 0 := ne_of_gt hpos
      field_simp
      ring
  · intro src
    refine ⟨?_, rfl, rfl, rfl⟩
    simp [zeroVoteResult]

/-- Witness for the C5 theorem: the aggregate stage applied to a consistent
remote five-tuple with a positive total. -/
theorem tally_result_invariants_witness :
    ((contractGetterResult 50 30 20 100 3).totalVotingPower
      = (contractGetterResult 50 30 20 100 3).yesVotingPower
        + (contractGetterResult 50 30 20 100 3).noVotingPower
        + (contractGetterResult 50 30 20 100 3).abstainVotingPower) ∧
    98 ≤ (contractGetterResult 50 30 20 100 3).yesPercentage
        + (contractGetterResult 50 30 20 100 3).noPercentage
        + (contractGetterResult 50 30 20 100 3).abstainPercentage :=
  ⟨(tally_result_invariants.1 50 30 20 100 3 (by norm_num)).1,
   ((tally_result_invariants.1 50 30 20 100 3 (by norm_num)).2.2 (by norm_num)).1⟩

theorem expandHigh_spec (K : Int) (hK : K ≤ 10000) :
    ∀ (fuel low high : Nat), 2 ^ fuel * high > 10000 → 0 < high →
      (((low : Int) ≤ K) ∨ low = 0) →
      ((((expandHigh (existsUpTo K) low high fuel).1 : Int) ≤ K) ∨
        (expandHigh (existsUpTo K) low high fuel).1 = 0) ∧
      K < ((expandHigh (existsUpTo K) low high fuel).2 : Int) := by
  intro fuel
  induction fuel with
  | zero =>
    intro low high hcap hpos hlow
    simp only [expandHigh]
    refine ⟨hlow, ?_⟩
    have hh : high > 10000 := by simpa using hcap
    omega
  | succ f ih =>
    intro low high hcap hpos hlow
    simp only [expandHigh]
    by_cases hx : existsUpTo K high = true
    · have hhK : (high : Int) ≤ K := by
        simpa [existsUpTo] using hx
      rw [if_pos hx]
      by_cases hcap2 : high * 2 > 10000
      · rw [if_pos hcap2]
        refine ⟨Or.inl hhK, ?_⟩
        push_cast
        omega
      · rw [if_neg hcap2]
        refine ih high (high * 2) ?_ (by omega) (Or.inl hhK)
        rw [show 2 ^ f * (high * 2) = 2 ^ (f + 1) * high by ring]
        exact hcap
    · rw [if_neg hx]
      have hKh : K < (high : Int) := by
        have := hx
        simp only [existsUpTo, decide_eq_true_eq] at this
        omega
      exact ⟨hlow, hKh⟩

theorem binarySearchMax_existsUpTo_aux (K : Int) :
    ∀ (fuel : Nat) (low : Nat) (high : Int), (high + 1 - (low : Int)).toNat ≤ fuel →
      binarySearchMax (existsUpTo K) low high
        = if high < (low : Int) then high
          else if K < (low : Int) then (low : Int) - 1
          else min K high := by
  intro fuel
  induction fuel with
  | zero =>
    intro low high hm
    have h : ¬ ((low : Int) ≤ high) := by omega
    rw [binarySearchMax, dif_neg h, if_pos (by omega)]
  | succ f ih =>
    intro low high hm
    by_cases h : (low : Int) ≤ high
    · have hh : (0 : Int) ≤ high := le_trans (Int.ofNat_nonneg low) h
      rw [binarySearchMax, dif_pos h]
      by_cases hx : existsUpTo K ((low + high.toNat) / 2) = true
      · have hxK : (((low + high.toNat) / 2 : Nat) : Int) ≤ K := by
          simpa [existsUpTo] using hx
        rw [if_pos hx, ih ((low + high.toNat) / 2 + 1) high (by omega)]
        split_ifs <;> omega
      · have hxK : K < (((low + high.toNat) / 2 : Nat) : Int) := by
          have := hx
          simp only [existsUpTo, decide_eq_true_eq] at this
          omega
        rw [if_neg hx, ih low (((low + high.toNat) / 2 : Nat) - 1) (by omega)]
        split_ifs <;> omega
    · rw [binarySearchMax, dif_neg h, if_pos (by omega)]

theorem binarySearchMax_existsUpTo (K : Int) (low : Nat) (high : Int) :
    binarySearchMax (existsUpTo K) low high
      = if high < (low : Int) then high
        else if K < (low : Int) then (low : Int) - 1
        else min K high :=
  binarySearchMax_existsUpTo_aux K ((high + 1 - (low : Int)).toNat) low high le_rfl

/-- C3: over a remote stub in which the point lookup succeeds exactly for
ids 0..K (K at most the 10000 ceiling, with K = -1 standing for the stub in
which even id 0 fails), discovery by exponential probing from high = 100 and
binary search of the bracket returns maxId = K; when id 0 already fails, the
binary search ends at the -1 sentinel and the result is produced by the
bounded linear scan of ids below 20. -/
theorem discovery_finds_max_id (K : Int) (h1 : -1 ≤ K) (h2 : K ≤ 10000) :
    fetchProposalsMaxId (existsUpTo K) = K ∧
    (K = -1 →
      binarySearchMax (existsUpTo K) (expandHigh (existsUpTo K) 0 100 8).1
        ((expandHigh (existsUpTo K) 0 100 8).2 : Int) = -1 ∧
      fetchProposalsMaxId (existsUpTo K) = linearFallback (existsUpTo K)) := by
  obtain ⟨hlow, hhigh⟩ :=
    expandHigh_spec K h2 8 0 100 (by norm_num) (by norm_num) (Or.inr rfl)
  have hbs := binarySearchMax_existsUpTo K (expandHigh (existsUpTo K) 0 100 8).1
    ((expandHigh (existsUpTo K) 0 100 8).2 : Int)
  by_cases hK : 0 ≤ K
  · have hl : ((expandHigh (existsUpTo K) 0 100 8).1 : Int) ≤ K := by
      rcases hlow with hc | hc
      · exact hc
      · rw [hc]
        exact_mod_cast hK
    have hm : binarySearchMax (existsUpTo K) (expandHigh (existsUpTo K) 0 100 8).1
        ((expandHigh (existsUpTo K) 0 100 8).2 : Int) = K := by
      rw [hbs, if_neg (by omega), if_neg (by omega)]
      omega
    refine ⟨?_, fun hcontra => by omega⟩
    simp only [fetchProposalsMaxId]
    rw [hm, if_neg (by omega)]
  · have hKm : K = -1 := by omega
    subst hKm
    have hm : binarySearchMax (existsUpTo (-1)) (expandHigh (existsUpTo (-1)) 0 100 8).1
        ((expandHigh (existsUpTo (-1)) 0 100 8).2 : Int) = -1 := by
      have hl0 : (expandHigh (existsUpTo (-1)) 0 100 8).1 = 0 := by
        rcases hlow with hc | hc
        · omega
        · exact hc
      rw [hbs, hl0, if_neg (by omega), if_pos (by omega)]
      norm_num
    refine ⟨?_, fun _ => ⟨hm, ?_⟩⟩
    · simp only [fetchProposalsMaxId]
      rw [hm]
      norm_num
      decide
    · simp only [fetchProposalsMaxId]
      rw [hm]
      norm_num

/-- Witness for the C3 theorem at the spec's worked example: ids 0..150
exist, discovery returns 150. -/
theorem discovery_finds_max_id_witness :
    fetchProposalsMaxId (existsUpTo 150) = 150 :=
  (discovery_finds_max_id 150 (by norm_num) (by norm_num)).1

theorem jsMapGet_cons_self {κ β : Type} [DecidableEq κ] (p : κ × β) (rest : List (κ × β)) :
    jsMapGet (p :: rest) p.1 = some p.2 := by
  simp [jsMapGet, List.find?]

theorem jsMapGet_cons_other {κ β : Type} [DecidableEq κ] (p : κ × β) (rest : List (κ × β))
    (v : κ) (h : ¬ p.1 = v) : jsMapGet (p :: rest) v = jsMapGet rest v := by
  simp [jsMapGet, List.find?, h]

theorem jsMapSet_keys_mem {κ β : Type} [DecidableEq κ] (m : List (κ × β)) (k : κ) (v : β)
    (h : k ∈ m.map Prod.fst) : (jsMapSet m k v).map Prod.fst = m.map Prod.fst := by
  induction m with
  | nil => simp at h
  | cons p rest ih =>
    by_cases hp : p.1 = k
    · simp [jsMapSet, hp]
    · rw [List.map_cons] at h
      have h2 : k ∈ rest.map Prod.fst := by
        rcases List.mem_cons.mp h with hc | hc
        · exact absurd hc.symm hp
        · exact hc
      simp [jsMapSet, hp, ih h2]

theorem jsMapSet_keys_not_mem {κ β : Type} [DecidableEq κ] (m : List (κ × β)) (k : κ)
    (v : β) (h : ¬ k ∈ m.map Prod.fst) :
    (jsMapSet m k v).map Prod.fst = m.map Prod.fst ++ [k] := by
  induction m with
  | nil => simp [jsMapSet]
  | cons p rest ih =>
    have hp : ¬ p.1 = k := by
      intro hc
      exact h (by simp [hc])
    have h2 : ¬ k ∈ rest.map Prod.fst := fun hc => h (by simp [hc])
    simp [jsMapSet, hp, ih h2]

theorem jsMapSet_keys_nodup {κ β : Type} [DecidableEq κ] (m : List (κ × β)) (k : κ)
    (v : β) (h : (m.map Prod.fst).Nodup) : ((jsMapSet m k v).map Prod.fst).Nodup := by
  by_cases hk : k ∈ m.map Prod.fst
  · rw [jsMapSet_keys_mem m k v hk]
    exact h
  · rw [jsMapSet_keys_not_mem m k v hk]
    simp [List.nodup_append, h, hk]

theorem mem_jsMapSet_keys {κ β : Type} [DecidableEq κ] (m : List (κ × β)) (k : κ)
    (v : β) (a : κ) :
    a ∈ (jsMapSet m k v).map Prod.fst ↔ a ∈ m.map Prod.fst ∨ a = k := by
  by_cases hk : k ∈ m.map Prod.fst
  · rw [jsMapSet_keys_mem m k v hk]
    constructor
    · exact Or.inl
    · rintro (hc | rfl)
      · exact hc
      · exact hk
  · rw [jsMapSet_keys_not_mem m k v hk]
    simp [List.mem_append]

theorem buildVoterMap_concat (log : List VoteCastEvent) (e : VoteCastEvent) :
    buildVoterMap (log ++ [e])
      = jsMapSet (buildVoterMap log) e.voter (e.support, e.power) := by
  simp [buildVoterMap, List.foldl_append]

theorem lastVoteOf_concat (log : List VoteCastEvent) (e : VoteCastEvent) (v : Nat) :
    lastVoteOf (log ++ [e]) v
      = if e.voter = v then some (e.support, e.power) else lastVoteOf log v := by
  simp [lastVoteOf, List.foldl_append]

theorem buildVoterMap_keys_nodup (log : List VoteCastEvent) :
    ((buildVoterMap log).map Prod.fst).Nodup := by
  induction log using List.reverseRecOn with
  | nil => simp [buildVoterMap]
  | append_singleton l e ih =>
    rw [buildVoterMap_concat]
    exact jsMapSet_keys_nodup _ _ _ ih

theorem buildVoterMap_get (log : List VoteCastEvent) (v : Nat) :
    jsMapGet (buildVoterMap log) v = lastVoteOf log v := by
  induction log using List.reverseRecOn with
  | nil => simp [buildVoterMap, lastVoteOf, jsMapGet]
  | append_singleton l e ih =>
    rw [buildVoterMap_concat, lastVoteOf_concat]
    by_cases hv : e.voter = v
    · subst hv
      rw [if_pos rfl, jsMapGet_set_self]
    · rw [if_neg hv, jsMapGet_set_other _ _ _ _ (fun hc => hv hc.symm), ih]

theorem buildVoterMap_keys_mem (log : List VoteCastEvent) (a : Nat) :
    a ∈ (buildVoterMap log).map Prod.fst ↔ a ∈ log.map (fun e => e.voter) := by
  induction log using List.reverseRecOn with
  | nil => simp [buildVoterMap]
  | append_singleton l e ih =>
    rw [buildVoterMap_concat, mem_jsMapSet_keys]
    simp [ih]

theorem buildVoterMap_keys_toFinset (log : List VoteCastEvent) :
    ((buildVoterMap log).map Prod.fst).toFinset = uniqueVoters log := by
  ext a
  simp only [List.mem_toFinset, uniqueVoters]
  exact buildVoterMap_keys_mem log a

theorem filter_length_eq_sum_indicator {β : Type} (q : β → Bool)
    (m : List (Nat × β)) :
    (m.filter (fun p => q p.2)).length
      = (m.map (fun p => if q p.2 then (1 : ℕ) else 0)).sum := by
  induction m with
  | nil => rfl
  | cons p rest ih =>
    by_cases h : q p.2 <;> simp [List.filter_cons, h, ih] <;> omega

theorem assoc_sum_eq {β M : Type} [AddCommMonoid M] (f : β → M) :
    ∀ m : List (Nat × β), (m.map Prod.fst).Nodup →
      (m.map (fun p => f p.2)).sum
        = ∑ v ∈ (m.map Prod.fst).toFinset,
            (match jsMapGet m v with
             | some d => f d
             | none => 0) := by
  intro m
  induction m with
  | nil => intro _; simp
  | cons p rest ih =>
    intro hnd
    rw [List.map_cons] at hnd
    obtain ⟨hp, hrest⟩ := List.nodup_cons.mp hnd
    have hpf : ¬ p.1 ∈ (rest.map Prod.fst).toFinset :=
      fun hc => hp (List.mem_toFinset.mp hc)
    rw [List.map_cons, List.map_cons, List.sum_cons, List.toFinset_cons,
      Finset.sum_insert hpf]
    have hhead : (match jsMapGet (p :: rest) p.1 with
        | some d => f d
        | none => 0) = f p.2 := by
      rw [jsMapGet_cons_self]
    have htail : (∑ v ∈ (rest.map Prod.fst).toFinset,
          (match jsMapGet (p :: rest) v with
           | some d => f d
           | none => 0))
        = ∑ v ∈ (rest.map Prod.fst).toFinset,
            (match jsMapGet rest v with
             | some d => f d
             | none => 0) := by
      refine Finset.sum_congr rfl ?_
      intro v hv
      have hne : ¬ p.1 = v := fun hc => hpf (hc ▸ hv)
      rw [jsMapGet_cons_other _ _ _ hne]
    rw [hhead, htail, ih hrest]

theorem buildVoterMap_length (log : List VoteCastEvent) :
    (buildVoterMap log).length = (uniqueVoters log).card := by
  rw [← buildVoterMap_keys_toFinset log,
    List.toFinset_card_of_nodup (buildVoterMap_keys_nodup log), List.length_map]

theorem votesByType_eq_specCount (log : List VoteCastEvent) (t : Fin 3) :
    votesByType (buildVoterMap log) t = specCount log t := by
  have h1 : votesByType (buildVoterMap log) t
      = ((buildVoterMap log).map
          (fun p => if decide (p.2.1 = t) then (1 : ℕ) else 0)).sum :=
    filter_length_eq_sum_indicator (fun d : Fin 3 × ℚ => decide (d.1 = t))
      (buildVoterMap log)
  have h2 := assoc_sum_eq (fun d : Fin 3 × ℚ => if decide (d.1 = t) then (1 : ℕ) else 0)
    (buildVoterMap log) (buildVoterMap_keys_nodup log)
  rw [h1, h2, buildVoterMap_keys_toFinset log, specCount, Finset.card_filter]
  refine Finset.sum_congr rfl ?_
  intro v hv
  rw [buildVoterMap_get]
  rcases hl : lastVoteOf log v with _ | ⟨s, w⟩
  · simp
  · by_cases hs : s = t <;> simp [hs]

theorem powerByType_eq_specPower (log : List VoteCastEvent) (t : Fin 3) :
    powerByType (buildVoterMap log) t = specPower log t := by
  have h2 := assoc_sum_eq (fun d : Fin 3 × ℚ => if d.1 = t then d.2 else 0)
    (buildVoterMap log) (buildVoterMap_keys_nodup log)
  refine h2.trans ?_
  rw [buildVoterMap_keys_toFinset log, specPower]
  refine Finset.sum_congr rfl ?_
  intro v hv
  rw [buildVoterMap_get]
  rcases hl : lastVoteOf log v with _ | ⟨s, w⟩
  · simp
  · by_cases hs : s = t <;> simp [hs]

theorem votesByType_partition (m : List (Nat × (Fin 3 × ℚ))) :
    votesByType m 0 + votesByType m 1 + votesByType m 2 = m.length := by
  induction m with
  | nil => rfl
  | cons p rest ih =>
    obtain ⟨k, s, w⟩ := p
    fin_cases s <;> simp [votesByType, List.filter_cons] at ih ⊢ <;> omega

/-- C4: for every ordered vote-cast log of one proposal, the replay tally
counts exactly one vote per unique voter, taking for each voter the entry
latest in log order: totalVoters is the number of distinct voters, the
per-type counts and power sums equal the spec-side values computed from each
voter's last entry, the three counts partition the distinct voters, and
replaying the identical log again gives the identical (pure) result. -/
theorem replay_last_write_wins (log : List VoteCastEvent) :
    ((getIndexedVoteData log).totalVoters = (uniqueVoters log).card) ∧
    (∀ t, votesByType (buildVoterMap log) t = specCount log t) ∧
    ((getIndexedVoteData log).yesVotingPower = specPower log 1) ∧
    ((getIndexedVoteData log).noVotingPower = specPower log 0) ∧
    ((getIndexedVoteData log).abstainVotingPower = specPower log 2) ∧
    (votesByType (buildVoterMap log) 0 + votesByType (buildVoterMap log) 1
        + votesByType (buildVoterMap log) 2 = (uniqueVoters log).card) ∧
    (getIndexedVoteData log = getIndexedVoteData log) := by
  refine ⟨?_, fun t => votesByType_eq_specCount log t, ?_, ?_, ?_, ?_, rfl⟩
  · simp only [getIndexedVoteData]
    exact buildVoterMap_length log
  · simp only [getIndexedVoteData]
    exact powerByType_eq_specPower log 1
  · simp only [getIndexedVoteData]
    exact powerByType_eq_specPower log 0
  · simp only [getIndexedVoteData]
    exact powerByType_eq_specPower log 2
  · rw [votesByType_partition]
    exact buildVoterMap_length log
